import Mathlib

/-
Verification of the `global-mockable` crate: a lazily-initialized global
value slot (`GlobalMockable<T>` in `src/lib.rs`) that can be overridden
(`set`) and reset (`clear`) at runtime.

The Rust type is `RwLock<OnceCell<Arc<T>>>`.  We model it sequentially:
an `Arc<T>` handle is an allocation identity paired with the value it
points to (two handles are reference-identical exactly when they are equal
as pairs), and the `OnceCell` is a generation cell carrying the identity
of its own allocation (`gen`) together with its contents (`none` = empty).
`set` and `clear` install a brand-new cell (fresh `gen`), exactly as the
source assigns a fresh `OnceCell` under the write lock; `get_or_init`
populates the current cell in place when it is empty.

Factories in the source are closures with side effects (the tests use a
shared call counter), so a factory is modelled as a state transformer
over an environment type `sigma`: it returns the produced handle and the
updated environment, and it is applied only when the cell is empty.
-/

set_option autoImplicit false

universe u

/-- A reference-counted handle `Arc<T>`: an allocation identity together
with the pointed-to value.  Cloning an `Arc` preserves both fields, so
two handles are reference-identical iff they are equal. -/
structure Arc (T : Type u) where
  id : Nat
  val : T
deriving DecidableEq, Repr

/-- `GlobalMockable<T>` from `src/lib.rs`: the write lock wraps one
generation cell (`OnceCell<Arc<T>>`).  `gen` is the identity of the
current cell allocation; `cell` is its contents (`none` = empty). -/
structure GlobalMockable (T : Type u) where
  gen : Nat
  cell : Option (Arc T)
deriving DecidableEq, Repr

/-- Result of one `get_or_init` call: the slot afterwards, the returned
handle, the factory environment afterwards, and whether the factory was
invoked during the call. -/
structure GetResult (T : Type u) (σ : Type) where
  slot : GlobalMockable T
  handle : Arc T
  env : σ
  factoryRan : Bool
deriving DecidableEq, Repr

namespace GlobalMockable

/-- `GlobalMockable::const_new`: a fresh slot holding a fresh empty cell. -/
def const_new (T : Type u) : GlobalMockable T :=
  ⟨0, none⟩

/-- `GlobalMockable::get_or_init`: take the read lock, ask the current
cell for its value running `f` only if the cell is still empty, and clone
the resulting handle.  Populating happens in place: the cell identity
`gen` is unchanged. -/
def get_or_init {T : Type u} {σ : Type} (s : GlobalMockable T) (env : σ)
    (f : σ → Arc T × σ) : GetResult T σ :=
  match s.cell with
  | some h => ⟨s, h, env, false⟩
  | none => ⟨⟨s.gen, some (f env).1⟩, (f env).1, (f env).2, true⟩

/-- `GlobalMockable::set`: take the write lock and replace the current
cell with a brand-new cell pre-populated with `value`
(`OnceCell::const_new_with`). -/
def set {T : Type u} (s : GlobalMockable T) (value : Arc T) : GlobalMockable T :=
  ⟨s.gen + 1, some value⟩

/-- `GlobalMockable::clear`: take the write lock and replace the current
cell with a brand-new empty cell (`OnceCell::const_new`). -/
def clear {T : Type u} (s : GlobalMockable T) : GlobalMockable T :=
  ⟨s.gen + 1, none⟩

end GlobalMockable

/-- Outcome of a sequence of `get_or_init` calls: final slot, final
factory environment, the handles returned to the callers in order, and
how many factory invocations happened in total. -/
structure RunResult (T : Type u) (σ : Type) where
  slot : GlobalMockable T
  env : σ
  handles : List (Arc T)
  invocations : Nat
deriving DecidableEq, Repr

/-- Run a list of `get_or_init` calls (one factory per call) in sequence
against a slot, threading the factory environment through. -/
def runGets {T : Type u} {σ : Type} (s : GlobalMockable T) (env : σ) :
    List (σ → Arc T × σ) → RunResult T σ
  | [] => ⟨s, env, [], 0⟩
  | f :: fs =>
    let r := GlobalMockable.get_or_init s env f
    let rest := runGets r.slot r.env fs
    ⟨rest.slot, rest.env, r.handle :: rest.handles,
      (if r.factoryRan then 1 else 0) + rest.invocations⟩

/-- On a populated cell, `get_or_init` returns the stored handle, runs no
factory and leaves everything unchanged. -/
theorem get_or_init_populated {T : Type u} {σ : Type} (s : GlobalMockable T)
    (env : σ) (f : σ → Arc T × σ) (h : Arc T) (hc : s.cell = some h) :
    GlobalMockable.get_or_init s env f = ⟨s, h, env, false⟩ := by
  unfold GlobalMockable.get_or_init
  rw [hc]

/-- On an empty cell, `get_or_init` runs the factory, populates the same
cell in place and returns the produced handle. -/
theorem get_or_init_empty {T : Type u} {σ : Type} (s : GlobalMockable T)
    (env : σ) (f : σ → Arc T × σ) (hc : s.cell = none) :
    GlobalMockable.get_or_init s env f =
      ⟨⟨s.gen, some (f env).1⟩, (f env).1, (f env).2, true⟩ := by
  unfold GlobalMockable.get_or_init
  rw [hc]

/-- Unfolding equation for `runGets` on a nonempty call list. -/
theorem runGets_cons {T : Type u} {σ : Type} (s : GlobalMockable T) (env : σ)
    (f : σ → Arc T × σ) (fs : List (σ → Arc T × σ)) :
    runGets s env (f :: fs) =
      ⟨(runGets (GlobalMockable.get_or_init s env f).slot
          (GlobalMockable.get_or_init s env f).env fs).slot,
        (runGets (GlobalMockable.get_or_init s env f).slot
          (GlobalMockable.get_or_init s env f).env fs).env,
        (GlobalMockable.get_or_init s env f).handle ::
          (runGets (GlobalMockable.get_or_init s env f).slot
            (GlobalMockable.get_or_init s env f).env fs).handles,
        (if (GlobalMockable.get_or_init s env f).factoryRan then 1 else 0) +
          (runGets (GlobalMockable.get_or_init s env f).slot
            (GlobalMockable.get_or_init s env f).env fs).invocations⟩ :=
  rfl

/-- A run of `get_or_init` calls against a populated cell changes nothing:
every caller receives the stored handle and no factory ever runs. -/
theorem runGets_populated {T : Type u} {σ : Type} (s : GlobalMockable T)
    (env : σ) (h : Arc T) (hc : s.cell = some h) :
    ∀ fs : List (σ → Arc T × σ),
      runGets s env fs = ⟨s, env, List.replicate fs.length h, 0⟩ := by
  intro fs
  induction fs with
  | nil => rfl
  | cons f fs ih =>
    rw [runGets_cons, get_or_init_populated s env f h hc]
    simp [ih, List.replicate, List.length_cons]

/-- After any `get_or_init`, the current cell is populated with exactly
the handle the caller received. -/
theorem get_or_init_cell_eq_handle {T : Type u} {σ : Type} (s : GlobalMockable T)
    (env : σ) (f : σ → Arc T × σ) :
    (GlobalMockable.get_or_init s env f).slot.cell =
      some (GlobalMockable.get_or_init s env f).handle := by
  rcases hc : s.cell with _ | h
  · rw [get_or_init_empty s env f hc]
  · rw [get_or_init_populated s env f h hc]
    exact hc

/-- All handles handed out by one uninterrupted run of `get_or_init`
calls are equal to each other. -/
theorem runGets_handles_allEq {T : Type u} {σ : Type} (s : GlobalMockable T)
    (env : σ) (fs : List (σ → Arc T × σ)) :
    ∀ h1 ∈ (runGets s env fs).handles, ∀ h2 ∈ (runGets s env fs).handles, h1 = h2 := by
  rcases hc : s.cell with _ | h
  · rcases fs with _ | ⟨f, fs⟩
    · intro h1 h1m
      simp [runGets] at h1m
    · intro h1 h1m h2 h2m
      rw [runGets_cons, get_or_init_empty s env f hc,
        runGets_populated ⟨s.gen, some (f env).1⟩ (f env).2 (f env).1 rfl fs]
        at h1m h2m
      simp only [List.mem_cons] at h1m h2m
      have e1 : h1 = (f env).1 := by
        rcases h1m with h1m | h1m
        · exact h1m
        · exact List.eq_of_mem_replicate h1m
      have e2 : h2 = (f env).1 := by
        rcases h2m with h2m | h2m
        · exact h2m
        · exact List.eq_of_mem_replicate h2m
      rw [e1, e2]
  · intro h1 h1m h2 h2m
    rw [runGets_populated s env h hc fs] at h1m h2m
    rw [List.eq_of_mem_replicate h1m, List.eq_of_mem_replicate h2m]

/-- Two slots whose current cells hold the same contents are
observationally equivalent: any sequence of `get_or_init` calls returns
the same handles, performs the same factory invocations, ends in the same
factory environment, and leaves the two cells with equal contents. -/
theorem runGets_congr_cell {T : Type u} {σ : Type} :
    ∀ (fs : List (σ → Arc T × σ)) (s1 s2 : GlobalMockable T) (env : σ),
      s1.cell = s2.cell →
      (runGets s1 env fs).handles = (runGets s2 env fs).handles ∧
      (runGets s1 env fs).invocations = (runGets s2 env fs).invocations ∧
      (runGets s1 env fs).env = (runGets s2 env fs).env ∧
      (runGets s1 env fs).slot.cell = (runGets s2 env fs).slot.cell := by
  intro fs
  induction fs with
  | nil =>
    intro s1 s2 env hc
    exact ⟨rfl, rfl, rfl, hc⟩
  | cons f fs ih =>
    intro s1 s2 env hc
    rcases h1 : s1.cell with _ | h
    · have h2 : s2.cell = none := by rw [← hc, h1]
      have rec := ih ⟨s1.gen, some (f env).1⟩ ⟨s2.gen, some (f env).1⟩ (f env).2 rfl
      rw [runGets_cons, runGets_cons, get_or_init_empty s1 env f h1,
        get_or_init_empty s2 env f h2]
      exact ⟨by rw [rec.1], by rw [rec.2.1], rec.2.2.1, rec.2.2.2⟩
    · have h2 : s2.cell = some h := by rw [← hc, h1]
      have rec := ih s1 s2 env hc
      rw [runGets_cons, runGets_cons, get_or_init_populated s1 env f h h1,
        get_or_init_populated s2 env f h h2]
      exact ⟨by rw [rec.1], by rw [rec.2.1], rec.2.2.1, rec.2.2.2⟩

/-- C1.  Override wins: after `set(v)` completes, every subsequent
`get_or_init(f)` (any number of calls, any factories, no intervening
`clear`) returns a handle to `v`, and no factory is ever invoked. -/
theorem set_overrides {T : Type u} {σ : Type} (s : GlobalMockable T) (v : Arc T)
    (env : σ) (fs : List (σ → Arc T × σ)) :
    runGets (GlobalMockable.set s v) env fs =
      ⟨GlobalMockable.set s v, env, List.replicate fs.length v, 0⟩ :=
  runGets_populated (GlobalMockable.set s v) env v rfl fs

/-- C2.  Reset re-initializes: after `clear()` completes, the next
`get_or_init(f)` invokes its factory (exactly once for that call) and
returns the handle the factory produced, whatever the slot held before
the `clear` — whether populated by an earlier `get_or_init` or by `set`. -/
theorem clear_reinitializes {T : Type u} {σ : Type} (s : GlobalMockable T)
    (env : σ) (f : σ → Arc T × σ) :
    GlobalMockable.get_or_init (GlobalMockable.clear s) env f =
      ⟨⟨s.gen + 1, some (f env).1⟩, (f env).1, (f env).2, true⟩ :=
  rfl

/-- C4.  Idempotent reads: once the current cell is populated with a
handle `h` (by a prior `get_or_init` or by `set`), every further
`get_or_init` call, with any factory, does not invoke that factory and
returns the same handle `h`, leaving the slot untouched. -/
theorem populated_reads_idempotent {T : Type u} {σ : Type} (s : GlobalMockable T)
    (h : Arc T) (hc : s.cell = some h) (env : σ) (fs : List (σ → Arc T × σ)) :
    runGets s env fs = ⟨s, env, List.replicate fs.length h, 0⟩ :=
  runGets_populated s env h hc fs

/-- Witness for C4 at a concrete populated slot and two factories. -/
theorem populated_reads_idempotent_witness :
    runGets (⟨0, some ⟨5, 42⟩⟩ : GlobalMockable Nat) 0
        [fun c => (⟨9, 1⟩, c + 1), fun c => (⟨10, 2⟩, c + 1)] =
      ⟨⟨0, some ⟨5, 42⟩⟩, 0, List.replicate 2 ⟨5, 42⟩, 0⟩ :=
  populated_reads_idempotent ⟨0, some ⟨5, 42⟩⟩ ⟨5, 42⟩ rfl 0
    [fun c => (⟨9, 1⟩, c + 1), fun c => (⟨10, 2⟩, c + 1)]

/-- C9.  Last set wins: `set(v)` then `set(w)` with no intervening
`clear` leaves the cell with the same contents as `set(w)` alone, every
subsequent run of `get_or_init` calls returns exactly the same handles in
both cases — all of them `w`, with no factory invoked — and when `v` and
`w` differ no caller ever receives `v`. -/
theorem set_last_wins {T : Type u} {σ : Type} (s : GlobalMockable T) (v w : Arc T)
    (env : σ) (fs : List (σ → Arc T × σ)) :
    (GlobalMockable.set (GlobalMockable.set s v) w).cell =
      (GlobalMockable.set s w).cell ∧
    (runGets (GlobalMockable.set (GlobalMockable.set s v) w) env fs).handles =
      (runGets (GlobalMockable.set s w) env fs).handles ∧
    (runGets (GlobalMockable.set (GlobalMockable.set s v) w) env fs).handles =
      List.replicate fs.length w ∧
    (runGets (GlobalMockable.set (GlobalMockable.set s v) w) env fs).invocations = 0 ∧
    (v ≠ w → v ∉ (runGets (GlobalMockable.set (GlobalMockable.set s v) w) env fs).handles) := by
  have e1 := runGets_populated (GlobalMockable.set (GlobalMockable.set s v) w)
    env w rfl fs
  have e2 := runGets_populated (GlobalMockable.set s w) env w rfl fs
  refine ⟨rfl, ?_, ?_, ?_, ?_⟩
  · rw [e1, e2]
  · rw [e1]
  · rw [e1]
  · intro hne hmem
    rw [e1] at hmem
    exact hne (List.eq_of_mem_replicate hmem)

/-- Witness for C9 at concrete values, both branches of the final
implication discharged. -/
theorem set_last_wins_witness :
    (runGets (GlobalMockable.set
        (GlobalMockable.set (GlobalMockable.const_new Nat) ⟨1, 10⟩) ⟨2, 20⟩) 0
        [fun c => (⟨7, 3⟩, c + 1)]).handles = List.replicate 1 ⟨2, 20⟩ ∧
    (⟨1, 10⟩ : Arc Nat) ∉ (runGets (GlobalMockable.set
        (GlobalMockable.set (GlobalMockable.const_new Nat) ⟨1, 10⟩) ⟨2, 20⟩) 0
        [fun c => (⟨7, 3⟩, c + 1)]).handles :=
  ⟨(set_last_wins (GlobalMockable.const_new Nat) ⟨1, 10⟩ ⟨2, 20⟩ 0
      [fun c => (⟨7, 3⟩, c + 1)]).2.2.1,
    (set_last_wins (GlobalMockable.const_new Nat) ⟨1, 10⟩ ⟨2, 20⟩ 0
      [fun c => (⟨7, 3⟩, c + 1)]).2.2.2.2 (by decide)⟩

/-- C10.  Clear is idempotent and matches construction: after
`clear(); clear()` the cell has the same contents as after one `clear`,
which has the same contents as a freshly constructed slot, and any
sequence of `get_or_init` calls behaves identically (same handles, same
number of factory invocations, same final environment) from all three
starting points. -/
theorem clear_idempotent_matches_construction {T : Type u} {σ : Type}
    (s : GlobalMockable T) (env : σ) (fs : List (σ → Arc T × σ)) :
    (GlobalMockable.clear (GlobalMockable.clear s)).cell =
      (GlobalMockable.clear s).cell ∧
    (GlobalMockable.clear s).cell = (GlobalMockable.const_new T).cell ∧
    (runGets (GlobalMockable.clear (GlobalMockable.clear s)) env fs).handles =
      (runGets (GlobalMockable.clear s) env fs).handles ∧
    (runGets (GlobalMockable.clear (GlobalMockable.clear s)) env fs).invocations =
      (runGets (GlobalMockable.clear s) env fs).invocations ∧
    (runGets (GlobalMockable.clear (GlobalMockable.clear s)) env fs).env =
      (runGets (GlobalMockable.clear s) env fs).env ∧
    (runGets (GlobalMockable.clear s) env fs).handles =
      (runGets (GlobalMockable.const_new T) env fs).handles ∧
    (runGets (GlobalMockable.clear s) env fs).invocations =
      (runGets (GlobalMockable.const_new T) env fs).invocations ∧
    (runGets (GlobalMockable.clear s) env fs).env =
      (runGets (GlobalMockable.const_new T) env fs).env := by
  have r1 := runGets_congr_cell fs
    (GlobalMockable.clear (GlobalMockable.clear s)) (GlobalMockable.clear s) env rfl
  have r2 := runGets_congr_cell fs
    (GlobalMockable.clear s) (GlobalMockable.const_new T) env rfl
  exact ⟨rfl, rfl, r1.1, r1.2.1, r1.2.2.1, r2.1, r2.2.1, r2.2.2.1⟩

/-- C6.  Generation-cell monotonicity: `get_or_init` never installs a new
cell (the cell identity `gen` is preserved) and never replaces or mutates
an already-populated cell (the slot is returned untouched); after any
`get_or_init` the cell holds exactly the returned handle, so a populated
cell never goes back to empty or to a different value; `set` and `clear`
are the only operations that change the slot contents and they do it by
installing a wholly new cell (a different `gen`); consequently all
`get_or_init` calls between two consecutive `set`/`clear` operations
return handles to one fixed value. -/
theorem generation_cell_monotone {T : Type u} {σ : Type} (s : GlobalMockable T)
    (env : σ) (f : σ → Arc T × σ) (v h : Arc T) (fs : List (σ → Arc T × σ)) :
    (GlobalMockable.get_or_init s env f).slot.gen = s.gen ∧
    (s.cell = some h → (GlobalMockable.get_or_init s env f).slot = s) ∧
    (GlobalMockable.get_or_init s env f).slot.cell =
      some (GlobalMockable.get_or_init s env f).handle ∧
    (GlobalMockable.set s v).gen ≠ s.gen ∧
    (GlobalMockable.clear s).gen ≠ s.gen ∧
    (∀ h1 ∈ (runGets s env fs).handles, ∀ h2 ∈ (runGets s env fs).handles,
      h1 = h2) := by
  refine ⟨?_, ?_, get_or_init_cell_eq_handle s env f, ?_, ?_,
    runGets_handles_allEq s env fs⟩
  · rcases hc : s.cell with _ | h0
    · rw [get_or_init_empty s env f hc]
    · rw [get_or_init_populated s env f h0 hc]
  · intro hc
    rw [get_or_init_populated s env f h hc]
  · exact Nat.succ_ne_self s.gen
  · exact Nat.succ_ne_self s.gen

/-- Witness for C6: a populated slot, a factory, and a two-call run, with
the populated-cell hypothesis and both membership hypotheses discharged
at concrete inputs. -/
theorem generation_cell_monotone_witness :
    (GlobalMockable.get_or_init (⟨0, some ⟨5, 42⟩⟩ : GlobalMockable Nat) 0
      (fun c => (⟨9, 1⟩, c + 1))).slot = (⟨0, some ⟨5, 42⟩⟩ : GlobalMockable Nat) ∧
    ((⟨9, 1⟩ : Arc Nat) = ⟨9, 1⟩) :=
  ⟨(generation_cell_monotone (⟨0, some ⟨5, 42⟩⟩ : GlobalMockable Nat) 0
      (fun c => (⟨9, 1⟩, c + 1)) ⟨0, 0⟩ ⟨5, 42⟩ []).2.1 rfl,
    (generation_cell_monotone (⟨3, none⟩ : GlobalMockable Nat) 0
      (fun c => (⟨9, 1⟩, c + 1)) ⟨0, 0⟩ ⟨5, 42⟩
      [fun c => (⟨9, 1⟩, c + 1), fun c => (⟨10, 2⟩, c + 1)]).2.2.2.2.2
      ⟨9, 1⟩ (by decide) ⟨9, 1⟩ (by decide)⟩

/-- The concrete struct used in the source test
`supports_mocking_concrete_types`: a struct with a single integer field
`value`. -/
structure SimpleStruct where
  value : Nat
deriving DecidableEq, Repr

/-- Step 1 of Scenario A: `get_or_init` on the fresh slot with counter 0
and a counter-incrementing factory returning value 1. -/
def scenarioA_r1 : GetResult SimpleStruct Nat :=
  GlobalMockable.get_or_init (GlobalMockable.const_new SimpleStruct) 0
    (fun c => (⟨1, ⟨1⟩⟩, c + 1))

/-- Step 2 of Scenario A: `set` of value 99, then `get_or_init` with a
counter-incrementing factory returning value 2. -/
def scenarioA_r2 : GetResult SimpleStruct Nat :=
  GlobalMockable.get_or_init (GlobalMockable.set scenarioA_r1.slot ⟨2, ⟨99⟩⟩)
    scenarioA_r1.env (fun c => (⟨3, ⟨2⟩⟩, c + 1))

/-- Step 3 of Scenario A: `clear`, then `get_or_init` with a
counter-incrementing factory returning value 7. -/
def scenarioA_r3 : GetResult SimpleStruct Nat :=
  GlobalMockable.get_or_init (GlobalMockable.clear scenarioA_r2.slot)
    scenarioA_r2.env (fun c => (⟨4, ⟨7⟩⟩, c + 1))

/-- C5.  End-to-end sequential scenario (Scenario A): starting from a
fresh slot and a call counter at 0, a `get_or_init` whose factory
increments the counter and returns value 1 yields value 1 with counter 1;
after `set` of value 99, a `get_or_init` whose factory would increment
the counter and return value 2 yields value 99 with the factory not run
and the counter still 1; after `clear`, a `get_or_init` whose factory
increments the counter and returns value 7 yields value 7 with counter 2. -/
theorem scenario_a :
    scenarioA_r1.handle.val = ⟨1⟩ ∧ scenarioA_r1.env = 1 ∧
    scenarioA_r1.factoryRan = true ∧
    scenarioA_r2.handle.val = ⟨99⟩ ∧ scenarioA_r2.env = 1 ∧
    scenarioA_r2.factoryRan = false ∧
    scenarioA_r3.handle.val = ⟨7⟩ ∧ scenarioA_r3.env = 2 ∧
    scenarioA_r3.factoryRan = true := by
  decide

/-- Output of the `define_global_mockable` macro in `src/lib.rs`: a named
accessor bound to one default factory (`default_impl`) and owning one
static slot uniquely associated with it.  The slot state is threaded
explicitly here; `get` delegates to `get_or_init` with the bound default
factory, `set` and `clear` forward to the slot operations. -/
structure GeneratedAccessor (T : Type u) (σ : Type) where
  default_impl : σ → Arc T × σ

namespace GeneratedAccessor

/-- The generated `get()`: delegates to `get_or_init` with the bound
default factory. -/
def get {T : Type u} {σ : Type} (a : GeneratedAccessor T σ)
    (s : GlobalMockable T) (env : σ) : GetResult T σ :=
  GlobalMockable.get_or_init s env a.default_impl

/-- The generated `set(value)`: forwards to the slot. -/
def set {T : Type u} {σ : Type} (a : GeneratedAccessor T σ)
    (s : GlobalMockable T) (value : Arc T) : GlobalMockable T :=
  GlobalMockable.set s value

/-- The generated `clear()`: forwards to the slot. -/
def clear {T : Type u} {σ : Type} (a : GeneratedAccessor T σ)
    (s : GlobalMockable T) : GlobalMockable T :=
  GlobalMockable.clear s

end GeneratedAccessor

/-- C7.  Accessor delegation: the `get`, `set`, and
`clear` each forward to the one underlying slot — `get` delegating to
`get_or_init` with the bound default factory `D` — and concretely:
`get` on the fresh slot returns the value `D` produces, after
`set(mock)` a `get` returns `mock` without running `D`, and after
`clear` a `get` runs `D` again and returns the value it produces. -/
theorem accessor_delegation {T : Type u} {σ : Type} (a : GeneratedAccessor T σ)
    (s : GlobalMockable T) (env env2 : σ) (mock : Arc T) :
    a.get s env = GlobalMockable.get_or_init s env a.default_impl ∧
    a.set s mock = GlobalMockable.set s mock ∧
    a.clear s = GlobalMockable.clear s ∧
    (a.get (GlobalMockable.const_new T) env).handle = (a.default_impl env).1 ∧
    (a.get (GlobalMockable.const_new T) env).factoryRan = true ∧
    (a.get (a.set s mock) env).handle = mock ∧
    (a.get (a.set s mock) env).factoryRan = false ∧
    (a.get (a.clear s) env2).handle = (a.default_impl env2).1 ∧
    (a.get (a.clear s) env2).factoryRan = true :=
  ⟨rfl, rfl, rfl, rfl, rfl, rfl, rfl, rfl, rfl⟩

/-- Variant of `get_or_init` whose factory may abort.  The source gives
the factory no error channel at all (`get_or_init` returns `Arc<T>`, so
the only failure mode is the factory future aborting mid-run); `none`
models such an abort, which propagates to the calling `get_or_init`
invocation.  The control flow is exactly that of the source: a populated
cell answers without consulting the factory, an empty cell defers to it. -/
def get_or_initF {T : Type u} {σ : Type} (s : GlobalMockable T) (env : σ)
    (f : σ → Option (Arc T × σ)) : Option (GetResult T σ) :=
  match s.cell with
  | some h => some ⟨s, h, env, false⟩
  | none =>
    match f env with
    | some fr => some ⟨⟨s.gen, some fr.1⟩, fr.1, fr.2, true⟩
    | none => none

/-- C8.  No operation fails on its own: `set` and `clear` always succeed,
unconditionally installing the specified new cell; `get_or_init` defines
no error result of its own — whenever the factory completes with a value
(or is not consulted at all), `get_or_init` completes with a value, and
the only way a `get_or_init` call can fail is that its own cell was empty
and its own factory aborted, so a factory failure propagates to exactly
that call. -/
theorem no_operation_fails {T : Type u} {σ : Type} (s : GlobalMockable T)
    (v : Arc T) (env : σ) (f : σ → Option (Arc T × σ)) :
    (GlobalMockable.set s v).cell = some v ∧
    (GlobalMockable.clear s).cell = none ∧
    ((f env).isSome = true → (get_or_initF s env f).isSome = true) ∧
    (∀ h, s.cell = some h → (get_or_initF s env f).isSome = true) ∧
    (get_or_initF s env f = none → s.cell = none ∧ f env = none) := by
  refine ⟨rfl, rfl, ?_, ?_, ?_⟩
  · intro hsome
    unfold get_or_initF
    rcases hc : s.cell with _ | h
    · rcases hf : f env with _ | fr
      · rw [hf] at hsome
        cases hsome
      · rfl
    · rfl
  · intro h hc
    unfold get_or_initF
    rw [hc]
    rfl
  · intro hnone
    unfold get_or_initF at hnone
    rcases hc : s.cell with _ | h
    · rw [hc] at hnone
      rcases hf : f env with _ | fr
      · exact ⟨rfl, rfl⟩
      · rw [hf] at hnone
        cases hnone
    · rw [hc] at hnone
      cases hnone

/-- Witness for C8: both completion hypotheses and the failure-analysis
hypothesis discharged at concrete inputs. -/
theorem no_operation_fails_witness :
    (get_or_initF (GlobalMockable.const_new Nat) 0
        (fun c => some (⟨1, 5⟩, c + 1))).isSome = true ∧
    (get_or_initF (⟨0, some ⟨2, 9⟩⟩ : GlobalMockable Nat) 0
        (fun c => some (⟨1, 5⟩, c + 1))).isSome = true ∧
    ((GlobalMockable.const_new Nat).cell = none ∧
      (fun (c : Nat) => (none : Option (Arc Nat × Nat))) 0 = none) :=
  ⟨(no_operation_fails (GlobalMockable.const_new Nat) ⟨1, 5⟩ 0
      (fun c => some (⟨1, 5⟩, c + 1))).2.2.1 (by decide),
    (no_operation_fails (⟨0, some ⟨2, 9⟩⟩ : GlobalMockable Nat) ⟨1, 5⟩ 0
      (fun c => some (⟨1, 5⟩, c + 1))).2.2.2.1 ⟨2, 9⟩ rfl,
    (no_operation_fails (GlobalMockable.const_new Nat) ⟨1, 5⟩ 0
      (fun c => (none : Option (Arc Nat × Nat)))).2.2.2.2 rfl⟩

/-- State of the single-init race of property P1: `N` tasks concurrently
call `get_or_init` on one freshly constructed slot.  The factory of task `i`
increments the shared `counter` and returns the distinct handle with
allocation id `i` and value `val i`.  `cell` is the contents of the one
generation cell (no `set`/`clear` runs in this scenario, so the cell
identity is fixed); `initializing` is the task currently holding the
initialization permit of the once-cell (its factory is in flight); `results`
records the handle each task has received, `none` while it is still
inside its call. -/
structure ConcState (T : Type u) where
  cell : Option (Arc T)
  initializing : Option Nat
  counter : Nat
  results : List (Option (Arc T))
deriving DecidableEq, Repr

/-- One scheduler step giving task `i` the processor, following the
once-cell discipline of `OnceCell::get_or_init` under the read lock: a
finished task does nothing; a task that sees a populated cell takes a
clone of its handle and returns; on an empty cell a task acquires the
initialization permit if it is free, a task holding the permit completes
its factory (incrementing the shared counter, publishing its distinct
handle into the cell and returning it), and a task finding the permit
taken by another task waits. -/
def cstep {T : Type u} (val : Nat → T) (s : ConcState T) (i : Nat) : ConcState T :=
  match s.results[i]? with
  | none => s
  | some (some _) => s
  | some none =>
    match s.cell with
    | some v => ⟨some v, s.initializing, s.counter, s.results.set i (some v)⟩
    | none =>
      match s.initializing with
      | none => ⟨none, some i, s.counter, s.results⟩
      | some j =>
        if j = i then
          ⟨some ⟨i, val i⟩, none, s.counter + 1, s.results.set i (some ⟨i, val i⟩)⟩
        else s

/-- Run a whole schedule (an arbitrary interleaving of the tasks). -/
def crun {T : Type u} (val : Nat → T) (s : ConcState T) (sched : List Nat) :
    ConcState T :=
  sched.foldl (cstep val) s

/-- The initial race state: a freshly constructed empty slot, no factory
in flight, shared counter 0, and none of the `N` tasks finished. -/
def cinit (T : Type u) (N : Nat) : ConcState T :=
  ⟨none, none, 0, List.replicate N none⟩

/-- The race invariant: while the cell is empty no factory has finished
(counter 0) and no task has a result; once the cell is populated with
`v`, the counter is exactly 1 and every finished task got exactly `v`;
the initialization permit is only ever held while the cell is empty. -/
def ConcInv {T : Type u} (s : ConcState T) : Prop :=
  (s.initializing.isSome = true → s.cell = none) ∧
  (s.cell = none → s.counter = 0 ∧ ∀ r ∈ s.results, r = none) ∧
  (∀ v, s.cell = some v → s.counter = 1 ∧ ∀ r ∈ s.results, r = none ∨ r = some v)


/-- Step equation: a task id with no slot in `results` does nothing. -/
theorem cstep_out_of_range {T : Type u} (val : Nat → T) (s : ConcState T) (i : Nat)
    (h : s.results[i]? = none) : cstep val s i = s := by
  unfold cstep
  rw [h]

/-- Step equation: a finished task does nothing. -/
theorem cstep_finished {T : Type u} (val : Nat → T) (s : ConcState T) (i : Nat)
    (rv : Arc T) (h : s.results[i]? = some (some rv)) : cstep val s i = s := by
  unfold cstep
  rw [h]

/-- Step equation: an unfinished task that sees a populated cell takes a
clone of its handle and returns. -/
theorem cstep_read {T : Type u} (val : Nat → T) (s : ConcState T) (i : Nat)
    (v : Arc T) (h : s.results[i]? = some none) (hc : s.cell = some v) :
    cstep val s i = ⟨some v, s.initializing, s.counter, s.results.set i (some v)⟩ := by
  unfold cstep
  rw [h, hc]

/-- Step equation: on an empty cell with a free initialization permit,
the scheduled task acquires the permit and starts its factory. -/
theorem cstep_acquire {T : Type u} (val : Nat → T) (s : ConcState T) (i : Nat)
    (h : s.results[i]? = some none) (hc : s.cell = none)
    (hi : s.initializing = none) :
    cstep val s i = ⟨none, some i, s.counter, s.results⟩ := by
  unfold cstep
  rw [h, hc, hi]

/-- Step equation: the permit holder completes its factory — the shared
counter increments, its distinct handle is published into the cell and
returned to it, and the permit is released. -/
theorem cstep_complete {T : Type u} (val : Nat → T) (s : ConcState T) (i : Nat)
    (h : s.results[i]? = some none) (hc : s.cell = none)
    (hi : s.initializing = some i) :
    cstep val s i = ⟨some ⟨i, val i⟩, none, s.counter + 1,
      s.results.set i (some ⟨i, val i⟩)⟩ := by
  unfold cstep
  rw [h, hc, hi]
  simp

/-- Step equation: a task finding the permit held by another task waits. -/
theorem cstep_wait {T : Type u} (val : Nat → T) (s : ConcState T) (i j : Nat)
    (h : s.results[i]? = some none) (hc : s.cell = none)
    (hi : s.initializing = some j) (hne : j ≠ i) : cstep val s i = s := by
  unfold cstep
  rw [h, hc, hi]
  simp [hne]

/-- Unfolding equation for `crun` on a nonempty schedule. -/
theorem crun_cons {T : Type u} (val : Nat → T) (s : ConcState T) (i : Nat)
    (sched : List Nat) : crun val s (i :: sched) = crun val (cstep val s i) sched :=
  rfl

/-- One scheduler step preserves the race invariant and the number of
tasks. -/
theorem cstep_inv {T : Type u} (val : Nat → T) (s : ConcState T) (i : Nat)
    (h : ConcInv s) :
    ConcInv (cstep val s i) ∧ (cstep val s i).results.length = s.results.length := by
  obtain ⟨hinit, hempty, hfull⟩ := h
  rcases hres : s.results[i]? with _ | ri
  · rw [cstep_out_of_range val s i hres]
    exact ⟨⟨hinit, hempty, hfull⟩, rfl⟩
  · rcases ri with _ | rv
    · rcases hc : s.cell with _ | v
      · rcases hi : s.initializing with _ | j
        · rw [cstep_acquire val s i hres hc hi]
          refine ⟨⟨?_, ?_, ?_⟩, rfl⟩
          · intro _
            rfl
          · intro _
            exact hempty hc
          · intro v hv
            cases hv
        · by_cases hij : j = i
          · rw [hij] at hi
            rw [cstep_complete val s i hres hc hi]
            refine ⟨⟨?_, ?_, ?_⟩, List.length_set s.results i (some ⟨i, val i⟩)⟩
            · intro habs
              simp at habs
            · intro habs
              cases habs
            · intro v hv
              injection hv with hv
              refine ⟨?_, ?_⟩
              · show s.counter + 1 = 1
                rw [(hempty hc).1]
              · intro r hr
                rcases List.mem_or_eq_of_mem_set hr with hr | hr
                · exact Or.inl ((hempty hc).2 r hr)
                · rw [hr, hv]
                  exact Or.inr rfl
          · rw [cstep_wait val s i j hres hc hi hij]
            exact ⟨⟨hinit, hempty, hfull⟩, rfl⟩
      · rw [cstep_read val s i v hres hc]
        refine ⟨⟨?_, ?_, ?_⟩, List.length_set s.results i (some v)⟩
        · intro hs
          have hnone := hinit hs
          rw [hc] at hnone
          cases hnone
        · intro habs
          cases habs
        · intro w hw
          injection hw with hw
          obtain ⟨hcount, hmem⟩ := hfull v hc
          refine ⟨hcount, ?_⟩
          intro r hr
          rcases List.mem_or_eq_of_mem_set hr with hr | hr
          · rw [← hw]
            exact hmem r hr
          · rw [hr, hw]
            exact Or.inr rfl
    · rw [cstep_finished val s i rv hres]
      exact ⟨⟨hinit, hempty, hfull⟩, rfl⟩

/-- A whole schedule preserves the race invariant and the number of
tasks. -/
theorem crun_inv {T : Type u} (val : Nat → T) :
    ∀ (sched : List Nat) (s : ConcState T), ConcInv s →
      ConcInv (crun val s sched) ∧
      (crun val s sched).results.length = s.results.length := by
  intro sched
  induction sched with
  | nil =>
    intro s h
    exact ⟨h, rfl⟩
  | cons i sched ih =>
    intro s h
    have hstep := cstep_inv val s i h
    have hrest := ih (cstep val s i) hstep.1
    rw [crun_cons]
    exact ⟨hrest.1, by rw [hrest.2, hstep.2]⟩

/-- The initial race state satisfies the invariant. -/
theorem cinit_inv {T : Type u} (N : Nat) : ConcInv (cinit T N) := by
  refine ⟨?_, ?_, ?_⟩
  · intro habs
    cases habs
  · intro _
    exact ⟨rfl, fun r hr => List.eq_of_mem_replicate hr⟩
  · intro v hv
    cases hv

/-- C3.  Single initialization under concurrency: for every number of
tasks `N > 0` and every interleaving (schedule) of `N` concurrent
`get_or_init` calls against a freshly constructed empty slot, with
factories that each increment a shared counter and return a distinct
handle, once every caller has completed the shared counter was
incremented exactly once (exactly one factory ran), every caller received
exactly the one handle stored in the populated cell, and all callers hold
reference-identical handles. -/
theorem single_initialization {T : Type u} (val : Nat → T) (N : Nat)
    (sched : List Nat) (hN : 0 < N)
    (hdone : ∀ r ∈ (crun val (cinit T N) sched).results, r.isSome = true) :
    (crun val (cinit T N) sched).counter = 1 ∧
    (∀ r ∈ (crun val (cinit T N) sched).results,
      r = (crun val (cinit T N) sched).cell) ∧
    (∀ r1 ∈ (crun val (cinit T N) sched).results,
      ∀ r2 ∈ (crun val (cinit T N) sched).results, r1 = r2) := by
  have hinv := crun_inv val sched (cinit T N) (cinit_inv N)
  have hlen : (crun val (cinit T N) sched).results.length = N := by
    rw [hinv.2]
    exact List.length_replicate N none
  rcases hcell : (crun val (cinit T N) sched).cell with _ | v
  · obtain ⟨_, hall⟩ := hinv.1.2.1 hcell
    have hpos : 0 < (crun val (cinit T N) sched).results.length := by
      rw [hlen]
      exact hN
    obtain ⟨r, hr⟩ := List.exists_mem_of_length_pos hpos
    have := hdone r hr
    rw [hall r hr] at this
    cases this
  · obtain ⟨hcount, hall⟩ := hinv.1.2.2 v hcell
    have hval : ∀ r ∈ (crun val (cinit T N) sched).results, r = some v := by
      intro r hr
      rcases hall r hr with hr0 | hr0
      · have := hdone r hr
        rw [hr0] at this
        cases this
      · exact hr0
    refine ⟨hcount, ?_, ?_⟩
    · intro r hr
      rw [hval r hr]
    · intro r1 h1 r2 h2
      rw [hval r1 h1, hval r2 h2]

/-- Witness for C3: two tasks racing under the schedule in which task 0
acquires the permit, completes its factory, and then task 1 reads the
populated cell; both hypotheses discharged at these concrete inputs. -/
theorem single_initialization_witness :
    (crun (fun n => n) (cinit Nat 2) [0, 0, 1]).counter = 1 ∧
    (∀ r ∈ (crun (fun n => n) (cinit Nat 2) [0, 0, 1]).results,
      r = (crun (fun n => n) (cinit Nat 2) [0, 0, 1]).cell) ∧
    (∀ r1 ∈ (crun (fun n => n) (cinit Nat 2) [0, 0, 1]).results,
      ∀ r2 ∈ (crun (fun n => n) (cinit Nat 2) [0, 0, 1]).results, r1 = r2) :=
  single_initialization (fun n => n) 2 [0, 0, 1] (by decide) (by decide)
